import Mathlib

/-!
Verification of the Anthropic provider integration of this repository:
the request/response format translator, the streaming event parser, the
OAuth session manager and the credential resolution of the content
generator facade, shallowly embedded from the TypeScript sources
(packages/core/src/provider/anthropic.ts, packages/core/src/auth/anthropic.ts,
packages/cli/src/config/anthropicAuth.ts).

JavaScript strings are modelled as Lean `String` (or `List Char` where the
streaming buffer is cut at arbitrary chunk boundaries), JavaScript numbers
as `Nat`, `Int` or `Rat` as appropriate, and JavaScript truthiness of a
string-or-undefined value as "present and non-empty".
-/

/-! ## Format translator: generic (Gemini-style) request to provider request

Embedded from `AnthropicContentGenerator.convertToAnthropicFormat`. -/

/-- Concatenation of a list of strings, as the JavaScript array joining
with the empty separator used throughout the translator. -/
def joinTexts : List String → String
  | [] => ""
  | t :: ts => t ++ joinTexts ts

/-- A generic request part.  `none` models a part without a `text` field
(an image or function-call part, say); `some s` models a part whose `text`
field holds `s`, which may be the empty string. -/
abbrev GPart := Option String

/-- One element of the request's `contents` array after the
`Array.isArray(request.contents) ? request.contents : [request.contents]`
normalisation: a bare string, a `Part[]` array, or a `Content` object
with a `role` and a `parts` array (a lone part is normalised to a
one-element array by the source). -/
inductive ContentItem where
  | str (s : String)
  | partsArr (ps : List GPart)
  | content (role : String) (parts : List GPart)
deriving DecidableEq, Repr

/-- The generation configuration fields read by the translator.
`none` models an absent field. -/
structure GenConfig where
  maxOutputTokens : Option Nat := none
  temperature : Option Rat := none
deriving DecidableEq, Repr

/-- The generic request fields read by the translator. -/
structure GenerateContentRequest where
  contents : List ContentItem
  config : Option GenConfig := none
deriving DecidableEq, Repr

/-- One provider (Anthropic) message. -/
structure AnthropicMessage where
  role : String
  content : String
deriving DecidableEq, Repr

/-- The provider request body built by the translator. -/
structure AnthropicRequest where
  model : String
  max_tokens : Nat
  messages : List AnthropicMessage
  temperature : Rat
deriving DecidableEq, Repr

/-- JavaScript `a || d` for a possibly-absent number `a`: the default is
used when the value is absent or zero (zero is falsy). -/
def jsOrNat (a : Option Nat) (d : Nat) : Nat :=
  match a with
  | some n => if n = 0 then d else n
  | none => d

/-- JavaScript `a || d` for a possibly-absent numeric field, over `Rat`. -/
def jsOrRat (a : Option Rat) (d : Rat) : Rat :=
  match a with
  | some x => if x = 0 then d else x
  | none => d

/-- Messages contributed by one element of the `contents` array, from the
body of the `for (const content of contentArray)` loop:
a bare string becomes one `user` message; a `Part[]` array contributes one
`user` message holding the concatenated text of its text-bearing parts,
omitted when that text is empty; a `Content` object contributes **one
message per part** whose `text` is present and non-empty, with role
`assistant` when the turn role is `model` and `user` otherwise. -/
def itemMessages : ContentItem → List AnthropicMessage
  | .str s => [⟨"user", s⟩]
  | .partsArr ps =>
      let text := joinTexts (ps.filterMap id)
      if text = "" then [] else [⟨"user", text⟩]
  | .content role parts =>
      parts.filterMap fun p =>
        match p with
        | some t =>
            if t = "" then none
            else some ⟨if role = "model" then "assistant" else "user", t⟩
        | none => none

/-- `AnthropicContentGenerator.convertToAnthropicFormat`. -/
def convertToAnthropicFormat (model : String) (request : GenerateContentRequest) :
    AnthropicRequest :=
  { model := model
    max_tokens := jsOrNat (request.config.bind (·.maxOutputTokens)) 4096
    messages := request.contents.flatMap itemMessages
    temperature := jsOrRat (request.config.bind (·.temperature)) (7 / 10) }

/-! ## Format translator: provider response to generic response

Embedded from `AnthropicContentGenerator.convertToGeminiFormat`,
`mapFinishReason` and `createStreamResponse`. -/

/-- One block of the provider response `content` array. -/
structure AnthropicContentBlock where
  type : String
  text : String
deriving DecidableEq, Repr

/-- The provider response usage record. -/
structure AnthropicUsage where
  input_tokens : Nat
  output_tokens : Nat
deriving DecidableEq, Repr

/-- The provider response fields read by the translator. -/
structure AnthropicResponse where
  content : List AnthropicContentBlock
  stop_reason : String
  usage : AnthropicUsage
deriving DecidableEq, Repr

/-- The generic finish reasons produced by this code. -/
inductive FinishReason where
  | STOP
  | MAX_TOKENS
  | OTHER
deriving DecidableEq, Repr

/-- The generic response content: a list of text parts plus a role. -/
structure GenContent where
  parts : List String
  role : String
deriving DecidableEq, Repr

/-- One generic response candidate. -/
structure GenCandidate where
  content : GenContent
  finishReason : Option FinishReason
  index : Nat
deriving DecidableEq, Repr

/-- The generic response usage metadata. -/
structure UsageMetadata where
  promptTokenCount : Nat
  candidatesTokenCount : Nat
  totalTokenCount : Nat
deriving DecidableEq, Repr

/-- The generic response fields produced by this code. -/
structure GenerateContentResponse where
  candidates : List GenCandidate
  usageMetadata : UsageMetadata
  text : String
deriving DecidableEq, Repr

/-- `AnthropicContentGenerator.mapFinishReason`: the switch over
`stop_reason`. -/
def mapFinishReason (stopReason : String) : FinishReason :=
  if stopReason = "end_turn" then .STOP
  else if stopReason = "max_tokens" then .MAX_TOKENS
  else if stopReason = "stop_sequence" then .STOP
  else .OTHER

/-- `AnthropicContentGenerator.convertToGeminiFormat`. -/
def convertToGeminiFormat (response : AnthropicResponse) : GenerateContentResponse :=
  let text := joinTexts ((response.content.filter (·.type = "text")).map (·.text))
  { candidates := [{ content := { parts := [text], role := "model" }
                     finishReason := some (mapFinishReason response.stop_reason)
                     index := 0 }]
    usageMetadata := { promptTokenCount := response.usage.input_tokens
                       candidatesTokenCount := response.usage.output_tokens
                       totalTokenCount :=
                         response.usage.input_tokens + response.usage.output_tokens }
    text := text }

/-- `AnthropicContentGenerator.createStreamResponse`: one partial generic
response chunk; its finish reason is deliberately left unset. -/
def createStreamResponse (text : String) (inputTokens outputTokens : Nat) :
    GenerateContentResponse :=
  { candidates := [{ content := { parts := [text], role := "model" }
                     finishReason := none
                     index := 0 }]
    usageMetadata := { promptTokenCount := inputTokens
                       candidatesTokenCount := outputTokens
                       totalTokenCount := inputTokens + outputTokens }
    text := text }

/-! ## Stream event parser

Embedded from the body of `AnthropicContentGenerator.streamGenerator`:
the buffer is appended with each decoded chunk, split on newline, the last
(possibly incomplete) fragment is retained as the new buffer, and each
complete line is processed in order.  The `JSON.parse` call together with
the reads of the parsed object's fields is modelled by a decode function
`List Char -> Option AnthropicStreamEvent` (`none` models a parse throw,
which the source catches, warns about and skips); every theorem below is
universally quantified over that function. -/

/-- A parsed streaming event, as the source inspects it: the `type` field
together with the one field each arm reads.  `other` covers every
unrecognised type. -/
inductive AnthropicStreamEvent where
  | message_start (inputTokens : Option Nat)
  | content_block_delta (deltaText : Option String)
  | message_delta (outputTokens : Option Nat)
  | message_stop
  | other
deriving DecidableEq, Repr

/-- The parser's counters and termination flag: `totalInputTokens`,
`totalOutputTokens`, and whether the generator has returned (after
a `[DONE]` sentinel or a `message_stop` event). -/
structure StreamCore where
  totalInputTokens : Nat
  totalOutputTokens : Nat
  done : Bool
deriving DecidableEq, Repr

/-- Dispatch on the parsed event's type, from the
`if (parsed.type === ...)` chain: `message_start` captures
`message.usage.input_tokens` (absent reads default to 0 via `|| 0`),
`content_block_delta` yields one chunk when `delta.text` is present and
non-empty, `message_delta` updates the output-token counter,
`message_stop` terminates, anything else is ignored. -/
def processEvent (c : StreamCore) :
    AnthropicStreamEvent → StreamCore × List GenerateContentResponse
  | .message_start it => ({ c with totalInputTokens := it.getD 0 }, [])
  | .content_block_delta dt =>
      let text := dt.getD ""
      if text = "" then (c, [])
      else (c, [createStreamResponse text c.totalInputTokens c.totalOutputTokens])
  | .message_delta ot => ({ c with totalOutputTokens := ot.getD 0 }, [])
  | .message_stop => ({ c with done := true }, [])
  | .other => (c, [])

/-- The whitespace characters stripped by JavaScript `trim` that can occur
in a single stream line. -/
def isJsSpace (c : Char) : Bool :=
  c == ' ' || c == '\t' || c == '\n' || c == '\r'

/-- JavaScript `line.trim()`, over the characters of the line. -/
def jsTrim (l : List Char) : List Char :=
  ((l.dropWhile isJsSpace).reverse.dropWhile isJsSpace).reverse

/-- Processing of one complete line, from the body of the
`for (const line of lines)` loop: blank lines are skipped, lines without
the `data: ` marker are skipped, the `[DONE]` sentinel terminates the
stream, and otherwise the JSON payload after the marker is decoded and
dispatched (an undecodable payload is skipped). -/
def processLine (d : List Char → Option AnthropicStreamEvent) (c : StreamCore)
    (line : List Char) : StreamCore × List GenerateContentResponse :=
  if jsTrim line = [] then (c, [])
  else if "data: ".toList.isPrefixOf line then
    if line.drop 6 = "[DONE]".toList then ({ c with done := true }, [])
    else
      match d (line.drop 6) with
      | some parsed => processEvent c parsed
      | none => (c, [])
  else (c, [])

/-- Processing of a list of complete lines in order; once the generator
has returned (`done`), remaining lines are not processed. -/
def processLines (d : List Char → Option AnthropicStreamEvent) (c : StreamCore) :
    List (List Char) → StreamCore × List GenerateContentResponse
  | [] => (c, [])
  | l :: ls =>
      if c.done then (c, [])
      else
        ((processLines d (processLine d c l).1 ls).1,
         (processLine d c l).2 ++ (processLines d (processLine d c l).1 ls).2)

/-- Helper for `splitP`: prepend a character to the first complete line,
or to the trailing fragment when no complete line exists. -/
def consFrag (ch : Char) : List (List Char) × List Char → List (List Char) × List Char
  | ([], f) => ([], ch :: f)
  | (l0 :: ls, f) => ((ch :: l0) :: ls, f)

/-- `buffer.split('\n')` followed by `lines.pop()`: the complete
(newline-terminated) lines, and the trailing fragment that becomes the
new buffer. -/
def splitP : List Char → List (List Char) × List Char
  | [] => ([], [])
  | ch :: cs =>
      if ch = '\n' then ([] :: (splitP cs).1, (splitP cs).2)
      else consFrag ch (splitP cs)

/-- The parser state across chunks: counters plus the retained buffer. -/
structure StreamState where
  core : StreamCore
  buffer : List Char
deriving DecidableEq, Repr

/-- One iteration of the `while (true)` read loop on a chunk's decoded
text: append to the buffer, split on newline, retain the trailing
fragment, process the complete lines.  Once the generator has returned,
no further chunk is read. -/
def feedChunk (d : List Char → Option AnthropicStreamEvent) (s : StreamState)
    (chunk : List Char) : StreamState × List GenerateContentResponse :=
  if s.core.done then (s, [])
  else
    (⟨(processLines d s.core (splitP (s.buffer ++ chunk)).1).1,
      (splitP (s.buffer ++ chunk)).2⟩,
     (processLines d s.core (splitP (s.buffer ++ chunk)).1).2)

/-- The whole streaming read loop over a list of chunks, collecting every
yielded partial response in order. -/
def runChunks (d : List Char → Option AnthropicStreamEvent) (s : StreamState) :
    List (List Char) → StreamState × List GenerateContentResponse
  | [] => (s, [])
  | ch :: rest =>
      ((runChunks d (feedChunk d s ch).1 rest).1,
       (feedChunk d s ch).2 ++ (runChunks d (feedChunk d s ch).1 rest).2)

/-- The state at the start of `streamGenerator`: empty buffer, zero
counters. -/
def initStreamState : StreamState := ⟨⟨0, 0, false⟩, []⟩

/-! ## OAuth session manager

Embedded from `packages/cli/src/config/anthropicAuth.ts`:
`exchangeCodeForTokens` (its input cleanup and validation),
`startAnthropicOAuthFlow`, `completeAnthropicOAuthWithCode`, and from
`packages/core/src/auth/anthropic.ts`: `getAnthropicAccessToken`.
Network calls (`fetch` of the token endpoint), the `new URL` constructor
and the PKCE generator are external; they enter the model as explicit
parameters.  The module-level mutable variables `oauthSession`,
`isOAuthInProgress`, `isCompletingOAuth` and `oauthLock` form the state
record, threaded explicitly. -/

/-- The ESC character stripped by the ANSI-escape cleanup. -/
def escChar : Char := Char.ofNat 27

/-- A character matched by `[0-9;]` in the ANSI-escape pattern. -/
def isAnsiBody (c : Char) : Bool := c.isDigit || c == ';'

/-- A character matched by `[mGKHF]` in the ANSI-escape pattern. -/
def isAnsiTerm (c : Char) : Bool :=
  c == 'm' || c == 'G' || c == 'K' || c == 'H' || c == 'F'

/-- Scanner for the global replacement of the pattern
`ESC \x5b [0-9;]* [mGKHF]` by the empty string, structurally recursive on
a fuel argument; every step consumes at least one character of the list,
so fuel equal to the list length makes the fuel bound unreachable.  Since
the body and terminator character classes are disjoint, the regex
engine's greedy match with backtracking coincides with maximal-munch
scanning: a match starts at ESC `[`, takes the longest run of `[0-9;]`,
and requires one terminator character; on a failed match the scan resumes
at the next character. -/
def removeAnsiFuel : Nat → List Char → List Char
  | 0, l => l
  | _ + 1, [] => []
  | fuel + 1, c :: cs =>
      if c = escChar then
        match cs with
        | '[' :: rest =>
            match rest.dropWhile isAnsiBody with
            | t :: rest2 =>
                if isAnsiTerm t then removeAnsiFuel fuel rest2
                else c :: removeAnsiFuel fuel cs
            | [] => c :: removeAnsiFuel fuel cs
        | _ => c :: removeAnsiFuel fuel cs
      else c :: removeAnsiFuel fuel cs

/-- The source's ANSI escape-sequence removal
`replace(new RegExp(escChar + '\x5c[[0-9;]*[mGKHF]', 'g'), '')`. -/
def removeAnsi (l : List Char) : List Char := removeAnsiFuel l.length l

/-- JavaScript `haystack.includes(needle)` over character lists. -/
def containsSub (needle : List Char) : List Char → Bool
  | [] => needle.isEmpty
  | c :: cs => needle.isPrefixOf (c :: cs) || containsSub needle cs

/-- Strip a literal leading marker if present, as `replace(/^...$/y)` with
an anchored prefix pattern. -/
def stripLeading (marker l : List Char) : List Char :=
  if marker.isPrefixOf l then l.drop marker.length else l

/-- Strip a literal trailing marker if present, as an anchored suffix
pattern. -/
def stripTrailing (marker l : List Char) : List Char :=
  if marker.isSuffixOf l then l.take (l.length - marker.length) else l

/-- The terminal paste-artifact cleanup applied to the raw code input by
`exchangeCodeForTokens`, in source order: trim, strip a leading
bracketed-paste start marker, strip a trailing bracketed-paste end marker,
strip one trailing underscore, remove ANSI escape sequences, trim. -/
def cleanAuthCode (code : String) : String :=
  let a0 := jsTrim code.toList
  let a1 := stripLeading "[200~".toList a0
  let a2 := stripTrailing "[201~".toList a1
  let a3 := stripTrailing "_".toList a2
  let a4 := removeAnsi a3
  (jsTrim a4).asString

/-- The failure modes of the OAuth completion path, one per `throw` site
of `completeAnthropicOAuthWithCode` / `exchangeCodeForTokens`.  `noCode`
and `codeTooShort` are the two faces of the spec's `InvalidCode`. -/
inductive CompleteError where
  | noActiveSession
  | completionInProgress
  | invalidCallbackUrl
  | noCode
  | codeTooShort
  | tokenExchangeFailed (status : Nat)
deriving DecidableEq, Repr

deriving instance DecidableEq for Except

/-- Parsing and validation of the pasted authorization-code input, from
`exchangeCodeForTokens` before its network call.  `parseUrl` models the
platform `new URL` constructor composed with
`searchParams.get('code') || ''` and `searchParams.get('state') || ''`;
`none` models the constructor throwing.  The `#`-split branch models
`splits[0]` and `splits[1] || ''` of `authCode.split('#')`.  Returns the
parsed code and received state, or the error thrown. -/
def parseAuthCodeInput (parseUrl : String → Option (String × String))
    (code : String) : Except CompleteError (String × String) :=
  let cleaned := cleanAuthCode code
  let step : Except CompleteError (String × String) :=
    if containsSub "?code=".toList cleaned.toList then
      match parseUrl cleaned with
      | some cs => .ok cs
      | none => .error .invalidCallbackUrl
    else if cleaned.toList.contains '#' then
      .ok ((cleaned.toList.takeWhile (fun c => !(c = '#'))).asString,
           (((cleaned.toList.dropWhile (fun c => !(c = '#'))).drop 1).takeWhile
             (fun c => !(c = '#'))).asString)
    else .ok (cleaned, "")
  match step with
  | .error e => .error e
  | .ok p =>
      if p.1 = "" then .error .noCode
      else if p.1.length < 10 then .error .codeTooShort
      else .ok p

/-- The in-memory OAuth session: the PKCE verifier and the authorization
URL built from it. -/
structure OAuthSession where
  verifier : String
  url : String
deriving DecidableEq, Repr

/-- The module-level mutable state of `anthropicAuth.ts`: `oauthSession`,
`isOAuthInProgress`, `isCompletingOAuth`, `oauthLock`. -/
structure OAuthFlowState where
  oauthSession : Option OAuthSession
  inProgress : Bool
  completing : Bool
  lock : Bool
deriving DecidableEq, Repr

/-- The state before any flow has started. -/
def idleFlowState : OAuthFlowState := ⟨none, false, false, false⟩

/-- The outcome of the token-endpoint exchange network call, external to
this code. -/
inductive ExchangeHttp where
  | failure (status : Nat)
  | success
deriving DecidableEq, Repr

/-- `completeAnthropicOAuthWithCode`, as a transition on the module state:
fails immediately (state untouched) without a session or while another
completion is in flight; otherwise runs `exchangeCodeForTokens` and, on
success **and on every failure alike**, clears the session and all flags
(the catch block comments "to allow fresh restart"). -/
def completeAnthropicOAuthWithCode (parseUrl : String → Option (String × String))
    (http : ExchangeHttp) (st : OAuthFlowState) (code : String) :
    OAuthFlowState × Except CompleteError Unit :=
  match st.oauthSession with
  | none => (st, .error .noActiveSession)
  | some _ =>
      if st.completing then (st, .error .completionInProgress)
      else
        match parseAuthCodeInput parseUrl code with
        | .error e => (⟨none, false, false, false⟩, .error e)
        | .ok _ =>
            match http with
            | .failure s => (⟨none, false, false, false⟩, .error (.tokenExchangeFailed s))
            | .success => (⟨none, false, false, false⟩, .ok ())

/-- The result of `startAnthropicOAuthFlow`, one per `return` site. -/
inductive StartOutcome where
  | existingAfterLockWait (url : String)
  | alreadyAuthenticated
  | alreadyInProgress (url : String)
  | started (url : String)
deriving DecidableEq, Repr

/-- The URL carried by a `startAnthropicOAuthFlow` result (the
already-authenticated result carries the empty URL, as in the source). -/
def startUrl : StartOutcome → String
  | .existingAfterLockWait u => u
  | .alreadyAuthenticated => ""
  | .alreadyInProgress u => u
  | .started u => u

/-- The URL of a stored session (only read under a guard that the session
exists). -/
def sessionUrl : Option OAuthSession → String
  | some s => s.url
  | none => ""

/-- The body of `startAnthropicOAuthFlow` once the lock is held: inside
`try {...} finally { oauthLock = false }`.  `hasValid` is the result of
the external `hasValidTokens()` check; `fresh` is the session the
external PKCE generator would produce on this call. -/
def startFlowBody (hasValid : Bool) (fresh : OAuthSession) (st : OAuthFlowState) :
    OAuthFlowState × StartOutcome :=
  if hasValid then ({ st with lock := false }, .alreadyAuthenticated)
  else if (st.inProgress || st.completing) && st.oauthSession.isSome then
    ({ st with lock := false }, .alreadyInProgress (sessionUrl st.oauthSession))
  else
    ({ oauthSession := some fresh, inProgress := true,
       completing := st.completing, lock := false },
     .started fresh.url)

/-- `startAnthropicOAuthFlow` as a transition on the module state: when
the lock is held and a session exists after the bounded wait, the
existing session's URL is returned without touching the state; otherwise
the lock is taken and the body runs (releasing the lock in `finally`). -/
def startAnthropicOAuthFlow (hasValid : Bool) (fresh : OAuthSession)
    (st : OAuthFlowState) : OAuthFlowState × StartOutcome :=
  if st.lock then
    match st.oauthSession with
    | some s => (st, .existingAfterLockWait s.url)
    | none => startFlowBody hasValid fresh st
  else startFlowBody hasValid fresh st

/-! ## Stored credential and access-token retrieval

Embedded from `getAnthropicAccessToken` in
`packages/core/src/auth/anthropic.ts`. -/

/-- The stored credential record as parsed from the auth file.  The
source's interface declares `type: 'oauth'`, but the runtime value is
whatever JSON was stored, so the tag is modelled as a string. -/
structure OAuthTokens where
  type : String
  access : String
  refresh : String
  expires : Int
deriving DecidableEq, Repr

/-- The outcome of the refresh-token exchange, external to this code:
a non-success HTTP status (`!response.ok`), a thrown exception anywhere
in the attempt (network, JSON, storage), or fresh tokens. -/
inductive RefreshOutcome where
  | httpFailure (status : Nat)
  | thrown
  | refreshed (accessToken refreshToken : String) (expiresIn : Int)
deriving DecidableEq, Repr

/-- `getAnthropicAccessToken`: first component is the returned value
(`none` models `null`), second records whether the refresh-token exchange
was attempted.  `stored` is the parsed auth file (`none` when missing or
unreadable), `now` is `Date.now()`. -/
def getAnthropicAccessToken (stored : Option OAuthTokens) (now : Int)
    (outcome : RefreshOutcome) : Option String × Bool :=
  match stored with
  | none => (none, false)
  | some tokens =>
      if tokens.type ≠ "oauth" then (none, false)
      else if tokens.access ≠ "" ∧ tokens.expires > now then (some tokens.access, false)
      else
        match outcome with
        | .httpFailure _ => (none, true)
        | .thrown => (none, true)
        | .refreshed newAccess _ _ => (some newAccess, true)

/-! ## Content generator facade: credential resolution

Embedded from the authentication portion shared by
`AnthropicContentGenerator.generateContent` and `streamGenerator`. -/

/-- The authentication header set attached to the chat-endpoint request:
either `Authorization: Bearer` plus the OAuth beta marker, or `x-api-key`. -/
inductive AuthHeaders where
  | bearer (token : String)
  | apiKeyHeader (key : String)
deriving DecidableEq, Repr

/-- JavaScript truthiness of a string-or-undefined value. -/
def jsTruthy : Option String → Bool
  | some s => !(s = "")
  | none => false

/-- JavaScript `a || b` over string-or-undefined values. -/
def jsOrStr (a b : Option String) : Option String :=
  if jsTruthy a then a else b

/-- The credential resolution of the facade:
`apiKey = config.apiKey || process.env.ANTHROPIC_API_KEY`, then throw the
no-authentication error when neither `apiKey` nor the OAuth token is
truthy (`none` result), then attach the bearer header when the OAuth
token is truthy and the `x-api-key` header otherwise. -/
def resolveAuth (configApiKey envApiKey oauthToken : Option String) :
    Option AuthHeaders :=
  let apiKey := jsOrStr configApiKey envApiKey
  if !(jsTruthy apiKey) && !(jsTruthy oauthToken) then none
  else if jsTruthy oauthToken then some (.bearer (oauthToken.getD ""))
  else some (.apiKeyHeader (apiKey.getD ""))

/-! ## Supporting lemmas for the stream parser -/

theorem splitP_append (x y : List Char) :
    splitP (x ++ y) =
      ((splitP x).1 ++ (splitP ((splitP x).2 ++ y)).1,
       (splitP ((splitP x).2 ++ y)).2) := by
  induction x with
  | nil => simp [splitP]
  | cons ch cs ih =>
    by_cases h : ch = '\n'
    · subst h
      simp only [List.cons_append, splitP, if_pos, List.append_eq]
      rw [ih]
    · simp only [List.cons_append, splitP, if_neg h, List.append_eq]
      rw [ih]
      rcases hcs : splitP cs with ⟨ls, f⟩
      cases ls with
      | nil =>
        simp only [consFrag, List.nil_append, List.cons_append, splitP, if_neg h]
        rcases hfy : splitP (f ++ y) with ⟨qs, qf⟩
        simp [consFrag]
      | cons l0 ls' =>
        simp [consFrag, List.cons_append]

theorem splitP_no_newline (l : List Char) (h : '\n' ∉ l) : splitP l = ([], l) := by
  induction l with
  | nil => rfl
  | cons c cs ih =>
    have hc : ¬ c = '\n' := fun hh => h (by simp [hh])
    have hcs : '\n' ∉ cs := fun hh => h (List.mem_cons_of_mem _ hh)
    simp [splitP, hc, ih hcs, consFrag]

theorem splitP_snd_no_newline (l : List Char) : '\n' ∉ (splitP l).2 := by
  induction l with
  | nil => simp [splitP]
  | cons c cs ih =>
    by_cases h : c = '\n'
    · simpa [splitP, h] using ih
    · simp only [splitP, if_neg h]
      rcases hcs : splitP cs with ⟨ls, f⟩
      rw [hcs] at ih
      cases ls with
      | nil =>
        simp only [consFrag, List.mem_cons, not_or]
        exact ⟨fun hh => h hh.symm, ih⟩
      | cons l0 ls' => simpa [consFrag] using ih

theorem processLines_of_done (d : List Char → Option AnthropicStreamEvent)
    (c : StreamCore) (ls : List (List Char)) (h : c.done = true) :
    processLines d c ls = (c, []) := by
  cases ls <;> simp [processLines, h]

theorem processLines_append (d : List Char → Option AnthropicStreamEvent)
    (c : StreamCore) (l1 l2 : List (List Char)) :
    processLines d c (l1 ++ l2) =
      ((processLines d (processLines d c l1).1 l2).1,
       (processLines d c l1).2 ++ (processLines d (processLines d c l1).1 l2).2) := by
  induction l1 generalizing c with
  | nil => simp [processLines]
  | cons l ls ih =>
    by_cases hd : c.done
    · simp [processLines, hd, processLines_of_done d c l2 hd]
    · simp only [List.cons_append, processLines, hd, if_neg, Bool.false_eq_true,
        ite_false, List.append_eq]
      rw [ih]
      simp [List.append_assoc]

/-- Observational equivalence of parser states: equal counters and flag,
and equal buffers unless the generator has already returned (after which
the buffer is never read again). -/
def StreamEquiv (s t : StreamState) : Prop :=
  s.core = t.core ∧ (s.core.done = false → s.buffer = t.buffer)

theorem StreamEquiv.reflexive (s : StreamState) : StreamEquiv s s :=
  ⟨rfl, fun _ => rfl⟩

theorem StreamEquiv.transitive {s t u : StreamState}
    (h1 : StreamEquiv s t) (h2 : StreamEquiv t u) : StreamEquiv s u :=
  ⟨h1.1.trans h2.1, fun hd => (h1.2 hd).trans (h2.2 (h1.1 ▸ hd))⟩

theorem StreamEquiv.symmetric {s t : StreamState} (h : StreamEquiv s t) :
    StreamEquiv t s :=
  ⟨h.1.symm, fun hd => (h.2 (by rw [h.1]; exact hd)).symm⟩

theorem feedChunk_append (d : List Char → Option AnthropicStreamEvent)
    (s : StreamState) (a b : List Char) :
    (feedChunk d s (a ++ b)).2 =
        (feedChunk d s a).2 ++ (feedChunk d (feedChunk d s a).1 b).2 ∧
    StreamEquiv (feedChunk d s (a ++ b)).1 (feedChunk d (feedChunk d s a).1 b).1 := by
  by_cases hd : s.core.done
  · constructor
    · simp [feedChunk, hd]
    · simpa [feedChunk, hd] using StreamEquiv.reflexive s
  · have hsplit : splitP (s.buffer ++ (a ++ b)) =
        ((splitP (s.buffer ++ a)).1 ++ (splitP ((splitP (s.buffer ++ a)).2 ++ b)).1,
         (splitP ((splitP (s.buffer ++ a)).2 ++ b)).2) := by
      rw [← List.append_assoc]
      exact splitP_append (s.buffer ++ a) b
    by_cases h1 : (processLines d s.core (splitP (s.buffer ++ a)).1).1.done
    · constructor
      · simp [feedChunk, hd, hsplit, processLines_append, h1,
          processLines_of_done d _ _ h1]
      · refine ⟨?_, ?_⟩
        · simp [feedChunk, hd, hsplit, processLines_append, h1,
            processLines_of_done d _ _ h1]
        · intro hcontra
          exfalso
          simp only [feedChunk, hd, Bool.false_eq_true, ite_false, hsplit,
            processLines_append, processLines_of_done d _ _ h1] at hcontra
          rw [h1] at hcontra
          exact Bool.true_eq_false.mp hcontra
    · constructor
      · simp [feedChunk, hd, hsplit, processLines_append, h1]
      · constructor
        · simp [feedChunk, hd, hsplit, processLines_append, h1]
        · intro _
          simp [feedChunk, hd, hsplit, processLines_append, h1]

theorem feedChunk_congr (d : List Char → Option AnthropicStreamEvent)
    {s t : StreamState} (ch : List Char) (h : StreamEquiv s t) :
    (feedChunk d s ch).2 = (feedChunk d t ch).2 ∧
    StreamEquiv (feedChunk d s ch).1 (feedChunk d t ch).1 := by
  obtain ⟨hc, hb⟩ := h
  by_cases hd : s.core.done
  · have ht : t.core.done := by rw [← hc]; exact hd
    constructor
    · simp [feedChunk, hd, ht]
    · simp only [feedChunk, hd, ht, ite_true]
      exact ⟨hc, hb⟩
  · have hst : s = t := by
      cases s
      cases t
      simp only at hc hb
      simp [hc, hb (by simpa using hd)]
    subst hst
    exact ⟨rfl, StreamEquiv.reflexive _⟩

/-- The parser invariant: the retained buffer never contains a newline. -/
def bufferOk (s : StreamState) : Prop := '\n' ∉ s.buffer

theorem bufferOk_feedChunk (d : List Char → Option AnthropicStreamEvent)
    (s : StreamState) (ch : List Char) (h : bufferOk s) :
    bufferOk (feedChunk d s ch).1 := by
  by_cases hd : s.core.done
  · simpa [feedChunk, hd] using h
  · simpa [feedChunk, hd, bufferOk] using splitP_snd_no_newline (s.buffer ++ ch)

theorem feedChunk_nil (d : List Char → Option AnthropicStreamEvent)
    (s : StreamState) (h : bufferOk s) : feedChunk d s [] = (s, []) := by
  by_cases hd : s.core.done
  · simp [feedChunk, hd]
  · simp [feedChunk, hd, splitP_no_newline s.buffer h, processLines]

theorem runChunks_eq_feed_join (d : List Char → Option AnthropicStreamEvent)
    (chunks : List (List Char)) (s : StreamState) (h : bufferOk s) :
    (runChunks d s chunks).2 = (feedChunk d s chunks.flatten).2 ∧
    StreamEquiv (runChunks d s chunks).1 (feedChunk d s chunks.flatten).1 := by
  induction chunks generalizing s with
  | nil =>
    constructor
    · simp [runChunks, feedChunk_nil d s h]
    · simp only [runChunks, List.flatten_nil, feedChunk_nil d s h]
      exact StreamEquiv.reflexive s
  | cons ch rest ih =>
    have hjoin : (ch :: rest).flatten = ch ++ rest.flatten := by simp
    have happ := feedChunk_append d s ch rest.flatten
    have hbo : bufferOk (feedChunk d s ch).1 := bufferOk_feedChunk d s ch h
    have ihh := ih (feedChunk d s ch).1 hbo
    constructor
    · simp only [runChunks, hjoin, happ.1, ihh.1]
    · simp only [runChunks, hjoin]
      exact StreamEquiv.transitive ihh.2 (StreamEquiv.symmetric happ.2)

/-! ## Supporting lemmas for the request translator -/

theorem joinTexts_append (a b : List String) :
    joinTexts (a ++ b) = joinTexts a ++ joinTexts b := by
  induction a with
  | nil => simp [joinTexts]
  | cons t ts ih => simp [joinTexts, ih, String.append_assoc]

/-- The texts of the parts whose `text` field is present and non-empty,
in order. -/
def nonEmptyTexts (ps : List GPart) : List String :=
  ps.filterMap fun p =>
    match p with
    | some t => if t = "" then none else some t
    | none => none

theorem itemMessages_content_eq (role : String) (ps : List GPart) :
    itemMessages (.content role ps) =
      (nonEmptyTexts ps).map
        (fun t => ⟨if role = "model" then "assistant" else "user", t⟩) := by
  simp only [itemMessages, nonEmptyTexts, List.map_filterMap]
  congr 1
  funext p
  cases p with
  | none => rfl
  | some t => by_cases h : t = "" <;> simp [h]

theorem joinTexts_filterMap_id (ps : List GPart) :
    joinTexts (ps.filterMap id) = joinTexts (nonEmptyTexts ps) := by
  induction ps with
  | nil => rfl
  | cons p ps ih =>
    cases p with
    | none => simpa [nonEmptyTexts, List.filterMap_cons] using ih
    | some t =>
      by_cases h : t = ""
      · subst h
        simpa [nonEmptyTexts, List.filterMap_cons, joinTexts] using ih
      · simp only [nonEmptyTexts, List.filterMap_cons, id, h, ite_false, joinTexts]
        rw [ih]
        rfl

theorem flatMap_content_turns (turns : List (String × List GPart))
    (h1 : ∀ t ∈ turns, (nonEmptyTexts t.2).length = 1) :
    (turns.map fun t => ContentItem.content t.1 t.2).flatMap itemMessages =
      turns.map fun t =>
        AnthropicMessage.mk (if t.1 = "model" then "assistant" else "user")
          (joinTexts (t.2.filterMap id)) := by
  induction turns with
  | nil => rfl
  | cons t ts ih =>
    have ht := h1 t (List.mem_cons_self t ts)
    have hts : ∀ x ∈ ts, (nonEmptyTexts x.2).length = 1 :=
      fun x hx => h1 x (List.mem_cons_of_mem _ hx)
    obtain ⟨x, hx⟩ : ∃ x, nonEmptyTexts t.2 = [x] := by
      rcases hnet : nonEmptyTexts t.2 with _ | ⟨a, l⟩
      · rw [hnet] at ht
        simp at ht
      · rw [hnet] at ht
        have hl0 : l.length = 0 := by
          simp only [List.length_cons] at ht
          omega
        exact ⟨a, by rw [List.length_eq_zero.mp hl0]⟩
    have hjoin : joinTexts (t.2.filterMap id) = x := by
      rw [joinTexts_filterMap_id, hx]
      show x ++ joinTexts [] = x
      show x ++ "" = x
      exact String.append_empty x
    simp only [List.map_cons, List.flatMap_cons]
    rw [itemMessages_content_eq, hx, ih hts, hjoin]
    rfl

/-! ## The claims -/

/-- Claim C1, counterexample: a single turn whose `parts` array holds two
non-empty text parts is translated to **two** provider messages, one per
part, not to one message holding the concatenation, so a request with one
turn does not yield exactly one entry. -/
theorem toProviderRequest_concat_counterexample :
    (convertToAnthropicFormat "claude"
      { contents := [.content "user" [some "a", some "b"]],
        config := none }).messages = [⟨"user", "a"⟩, ⟨"user", "b"⟩] ∧
    (convertToAnthropicFormat "claude"
      { contents := [.content "user" [some "a", some "b"]],
        config := none }).messages.length ≠ 1 := by
  exact ⟨rfl, by decide⟩

/-- Claim C1, amended: for a generic request of N `Content` turns the
translator emits one provider message per part with present, non-empty
text; hence when every turn carries exactly one such part, the message
list has exactly N entries in turn order, entry i holding the
concatenation of the text of all text-bearing parts of turn i (the other
parts being empty), with role `model` mapped to `assistant` and every
other role mapped to `user`. -/
theorem toProviderRequest_message_per_nonempty_part (model : String)
    (cfg : Option GenConfig) (turns : List (String × List GPart))
    (h1 : ∀ t ∈ turns, (nonEmptyTexts t.2).length = 1) :
    (convertToAnthropicFormat model
      { contents := turns.map fun t => ContentItem.content t.1 t.2,
        config := cfg }).messages =
      turns.map (fun t =>
        AnthropicMessage.mk (if t.1 = "model" then "assistant" else "user")
          (joinTexts (t.2.filterMap id))) ∧
    (convertToAnthropicFormat model
      { contents := turns.map fun t => ContentItem.content t.1 t.2,
        config := cfg }).messages.length = turns.length := by
  have hmsg := flatMap_content_turns turns h1
  constructor
  · simpa [convertToAnthropicFormat] using hmsg
  · simp [convertToAnthropicFormat, hmsg]

/-- The turns of the claim C1 witness: one `model` turn with one non-empty
text part, one `user` turn with a non-text part, a non-empty text part
and an empty text part. -/
def turnsW : List (String × List GPart) :=
  [("model", [some "Hello"]), ("user", [none, some "Hi", some ""])]

/-- Claim C1 witness: the amended statement at a concrete two-turn
request. -/
theorem toProviderRequest_message_per_nonempty_part_witness :
    (∀ t ∈ turnsW, (nonEmptyTexts t.2).length = 1) ∧
    (convertToAnthropicFormat "claude"
      { contents := turnsW.map fun t => ContentItem.content t.1 t.2,
        config := none }).messages =
      [⟨"assistant", "Hello"⟩, ⟨"user", "Hi"⟩] := by
  constructor
  · decide
  · rw [(toProviderRequest_message_per_nonempty_part "claude" none turnsW
      (by decide)).1]
    rfl

/-- Claim C2, counterexample: with an active session, completing with the
empty input fails with the no-code face of `InvalidCode`, but the session
is **not** left untouched: the catch block sets it to `none`. -/
theorem completeFlow_session_cleared_counterexample :
    (completeAnthropicOAuthWithCode (fun _ => none) .success
        ⟨some ⟨"pkce-verifier", "https://auth.example"⟩, true, false, false⟩
        "").2 = .error .noCode ∧
    (completeAnthropicOAuthWithCode (fun _ => none) .success
        ⟨some ⟨"pkce-verifier", "https://auth.example"⟩, true, false, false⟩
        "").1.oauthSession = none ∧
    (none : Option OAuthSession) ≠
      some ⟨"pkce-verifier", "https://auth.example"⟩ := by
  exact ⟨rfl, rfl, by decide⟩

set_option maxHeartbeats 1000000 in
/-- Claim C2, amended: with an active session and no completion in flight,
an input whose parsed authorization code is empty or under-length fails
with the corresponding `InvalidCode` error, and the **whole session is
cleared** (session `none`, all flags reset) rather than preserved, so any
immediate retry fails with `NoActiveSession` until the flow is restarted. -/
theorem completeFlow_invalid_code_spec
    (parseUrl : String → Option (String × String)) (http : ExchangeHttp)
    (st : OAuthFlowState) (code retryCode : String) (sess : OAuthSession)
    (hs : st.oauthSession = some sess) (hc : st.completing = false)
    (he : parseAuthCodeInput parseUrl code = .error .noCode ∨
          parseAuthCodeInput parseUrl code = .error .codeTooShort) :
    ((completeAnthropicOAuthWithCode parseUrl http st code).2 =
        .error .noCode ∨
     (completeAnthropicOAuthWithCode parseUrl http st code).2 =
        .error .codeTooShort) ∧
    (completeAnthropicOAuthWithCode parseUrl http st code).1 = idleFlowState ∧
    (completeAnthropicOAuthWithCode parseUrl http
      (completeAnthropicOAuthWithCode parseUrl http st code).1 retryCode).2 =
      .error .noActiveSession := by
  rcases he with he | he
  · refine ⟨Or.inl ?_, ?_, ?_⟩ <;>
      simp [completeAnthropicOAuthWithCode, hs, hc, he, idleFlowState]
  · refine ⟨Or.inr ?_, ?_, ?_⟩ <;>
      simp [completeAnthropicOAuthWithCode, hs, hc, he, idleFlowState]

/-- Claim C2 witness: the amended statement at a concrete state and the
short pasted input `abc`. -/
theorem completeFlow_invalid_code_spec_witness :
    parseAuthCodeInput (fun _ => none) "abc" = .error .codeTooShort ∧
    (⟨some ⟨"v2", "u2"⟩, true, false, false⟩ : OAuthFlowState).oauthSession =
      some ⟨"v2", "u2"⟩ ∧
    (completeAnthropicOAuthWithCode (fun _ => none) .success
        ⟨some ⟨"v2", "u2"⟩, true, false, false⟩ "abc").1 = idleFlowState ∧
    (completeAnthropicOAuthWithCode (fun _ => none) .success
      (completeAnthropicOAuthWithCode (fun _ => none) .success
        ⟨some ⟨"v2", "u2"⟩, true, false, false⟩ "abc").1 "retry-code").2 =
      .error .noActiveSession := by
  have h := completeFlow_invalid_code_spec (fun _ => none) .success
    ⟨some ⟨"v2", "u2"⟩, true, false, false⟩ "abc" "retry-code" ⟨"v2", "u2"⟩
    rfl rfl (Or.inr (by decide))
  exact ⟨by decide, rfl, h.2.1, h.2.2⟩

/-- Claim C3, counterexample: with both a configuration API key and an
OAuth token available, the request is sent with the bearer header for the
OAuth token, not with `x-api-key`; the OAuth path takes precedence over
the key, contrary to the claimed order. -/
theorem resolveAuth_oauth_precedence_counterexample :
    resolveAuth (some "config-key") none (some "oauth-tok") =
      some (.bearer "oauth-tok") ∧
    resolveAuth (some "config-key") none (some "oauth-tok") ≠
      some (.apiKeyHeader "config-key") := by
  exact ⟨rfl, by decide⟩

/-- Claim C3, amended: the facade fails with the no-authentication error
exactly when neither the configuration key, the environment key nor the
OAuth token is truthy; otherwise the **OAuth bearer path takes
precedence**, and `x-api-key` is used only when no OAuth token exists,
carrying the configuration key if truthy and the environment key
otherwise. -/
theorem resolveAuth_order_spec (configApiKey envApiKey oauthToken : Option String) :
    (jsTruthy oauthToken = true →
      resolveAuth configApiKey envApiKey oauthToken =
        some (.bearer (oauthToken.getD ""))) ∧
    (jsTruthy oauthToken = false → jsTruthy configApiKey = true →
      resolveAuth configApiKey envApiKey oauthToken =
        some (.apiKeyHeader (configApiKey.getD ""))) ∧
    (jsTruthy oauthToken = false → jsTruthy configApiKey = false →
      jsTruthy envApiKey = true →
      resolveAuth configApiKey envApiKey oauthToken =
        some (.apiKeyHeader (envApiKey.getD ""))) ∧
    (jsTruthy oauthToken = false → jsTruthy configApiKey = false →
      jsTruthy envApiKey = false →
      resolveAuth configApiKey envApiKey oauthToken = none) := by
  refine ⟨fun h1 => ?_, fun h1 h2 => ?_, fun h1 h2 h3 => ?_, fun h1 h2 h3 => ?_⟩
  · simp [resolveAuth, jsOrStr, h1]
  · simp [resolveAuth, jsOrStr, h1, h2]
  · simp [resolveAuth, jsOrStr, h1, h2, h3]
  · simp [resolveAuth, jsOrStr, h1, h2, h3]

/-- Claim C3 witness: the amended statement at concrete credentials. -/
theorem resolveAuth_order_spec_witness :
    jsTruthy (some "tok") = true ∧
    resolveAuth (some "cfg-key") (some "env-key") (some "tok") =
      some (.bearer "tok") ∧
    jsTruthy (none : Option String) = false ∧
    resolveAuth (some "cfg-key") (some "env-key") none =
      some (.apiKeyHeader "cfg-key") := by
  refine ⟨rfl, ?_, rfl, ?_⟩
  · exact (resolveAuth_order_spec (some "cfg-key") (some "env-key")
      (some "tok")).1 rfl
  · exact (resolveAuth_order_spec (some "cfg-key") (some "env-key") none).2.1
      rfl rfl

/-- Claim C4 (confirmed): for every decode function and any two chunk
decompositions of the same character stream, the stream parser emits the
identical sequence of partial responses: complete lines are processed
only once their terminating newline has arrived, and the trailing
fragment is retained in the buffer across chunk boundaries, so no data is
lost or duplicated. -/
theorem streamParser_chunk_split_invariance
    (d : List Char → Option AnthropicStreamEvent)
    (chunks1 chunks2 : List (List Char))
    (h : chunks1.flatten = chunks2.flatten) :
    (runChunks d initStreamState chunks1).2 =
      (runChunks d initStreamState chunks2).2 := by
  have h1 := runChunks_eq_feed_join d chunks1 initStreamState
    (by simp [initStreamState, bufferOk])
  have h2 := runChunks_eq_feed_join d chunks2 initStreamState
    (by simp [initStreamState, bufferOk])
  rw [h1.1, h2.1, h]

/-- Claim C4 witness: splitting one event line in the middle of its
payload versus sending it whole yields the same emitted responses. -/
theorem streamParser_chunk_split_invariance_witness :
    (["data: x".toList, "\n".toList] : List (List Char)).flatten =
      (["data: x\n".toList] : List (List Char)).flatten ∧
    (runChunks (fun _ => some (.content_block_delta (some "hi")))
        initStreamState ["data: x".toList, "\n".toList]).2 =
      (runChunks (fun _ => some (.content_block_delta (some "hi")))
        initStreamState ["data: x\n".toList]).2 :=
  ⟨by decide, streamParser_chunk_split_invariance _ _ _ (by decide)⟩

/-- Claim C5 (confirmed): a `content_block_delta` event with non-empty
delta text yields exactly one partial response carrying that text, the
current running token counters and an unset finish reason; a
`content_block_delta` with empty or absent text yields nothing;
`message_start` only captures the input-token counter, `message_delta`
only updates the output-token counter, and an unrecognised event type
yields nothing and changes nothing. -/
theorem streamEvent_dispatch_spec (c : StreamCore) (t : String)
    (ht : ¬ t = "") (it ot : Option Nat) :
    processEvent c (.content_block_delta (some t)) =
      (c, [{ candidates := [⟨⟨[t], "model"⟩, none, 0⟩],
             usageMetadata := ⟨c.totalInputTokens, c.totalOutputTokens,
                              c.totalInputTokens + c.totalOutputTokens⟩,
             text := t }]) ∧
    processEvent c (.content_block_delta (some "")) = (c, []) ∧
    processEvent c (.content_block_delta none) = (c, []) ∧
    processEvent c (.message_start it) =
      ({ c with totalInputTokens := it.getD 0 }, []) ∧
    processEvent c (.message_delta ot) =
      ({ c with totalOutputTokens := ot.getD 0 }, []) ∧
    processEvent c .other = (c, []) := by
  refine ⟨?_, rfl, rfl, rfl, rfl, rfl⟩
  simp [processEvent, createStreamResponse, ht]

/-- Claim C5 witness: the dispatch at concrete counters and a concrete
non-empty fragment. -/
theorem streamEvent_dispatch_spec_witness :
    ¬ "Hi" = "" ∧
    processEvent ⟨3, 4, false⟩ (.content_block_delta (some "Hi")) =
      (⟨3, 4, false⟩, [{ candidates := [⟨⟨["Hi"], "model"⟩, none, 0⟩],
                         usageMetadata := ⟨3, 4, 7⟩, text := "Hi" }]) :=
  ⟨by decide,
   (streamEvent_dispatch_spec ⟨3, 4, false⟩ "Hi" (by decide) (some 7)
     (some 9)).1⟩

/-- Claim C6 (confirmed): the response translator maps `stop_reason` by
the fixed table (`end_turn` and `stop_sequence` to STOP, `max_tokens` to
MAX_TOKENS, anything else to OTHER), concatenates the text of all
text-typed content blocks into the single candidate, and sets the total
token count to `input_tokens + output_tokens`; in particular
`end_turn` yields finish reason STOP. -/
theorem toGenericResponse_mapping_spec (r : AnthropicResponse) (s : String)
    (hs : ¬ s = "end_turn" ∧ ¬ s = "stop_sequence" ∧ ¬ s = "max_tokens") :
    mapFinishReason "end_turn" = .STOP ∧
    mapFinishReason "stop_sequence" = .STOP ∧
    mapFinishReason "max_tokens" = .MAX_TOKENS ∧
    mapFinishReason s = .OTHER ∧
    (convertToGeminiFormat r).text =
      joinTexts ((r.content.filter fun b => b.type = "text").map
        fun b => b.text) ∧
    (convertToGeminiFormat r).candidates =
      [⟨⟨[(convertToGeminiFormat r).text], "model"⟩,
        some (mapFinishReason r.stop_reason), 0⟩] ∧
    (convertToGeminiFormat r).usageMetadata =
      ⟨r.usage.input_tokens, r.usage.output_tokens,
       r.usage.input_tokens + r.usage.output_tokens⟩ ∧
    (r.stop_reason = "end_turn" →
      (convertToGeminiFormat r).candidates.map (fun c => c.finishReason) =
        [some .STOP]) := by
  refine ⟨rfl, rfl, rfl, ?_, rfl, rfl, rfl, fun h => ?_⟩
  · simp [mapFinishReason, hs.1, hs.2.1, hs.2.2]
  · simp [convertToGeminiFormat, h, mapFinishReason]

/-- The provider response of the claim C6 witness: two text blocks around
a non-text block, an `end_turn` stop reason, and 10 + 15 tokens. -/
def respW : AnthropicResponse :=
  ⟨[⟨"text", "Hello"⟩, ⟨"tool_use", "zzz"⟩, ⟨"text", " world"⟩],
   "end_turn", ⟨10, 15⟩⟩

/-- Claim C6 witness: the mapping at a concrete response and the
unrecognised stop reason `tool_use`. -/
theorem toGenericResponse_mapping_spec_witness :
    (¬ "tool_use" = "end_turn" ∧ ¬ "tool_use" = "stop_sequence" ∧
      ¬ "tool_use" = "max_tokens") ∧
    mapFinishReason "tool_use" = .OTHER ∧
    (convertToGeminiFormat respW).text = "Hello world" ∧
    (convertToGeminiFormat respW).usageMetadata.totalTokenCount = 25 ∧
    (convertToGeminiFormat respW).candidates.map (fun c => c.finishReason) =
      [some .STOP] := by
  have h := toGenericResponse_mapping_spec respW "tool_use" (by decide)
  exact ⟨by decide, h.2.2.2.1, by decide, by decide, h.2.2.2.2.2.2.2 rfl⟩

/-- Claim C7 (confirmed): starting from the idle state with no valid
credential, a first `startFlow` stores a fresh session and returns its
URL, and a second `startFlow` before any completion or cancellation
returns that same URL, leaves the state unchanged, and creates no second
session, whatever fresh PKCE pair it could have generated. -/
theorem startFlow_twice_idempotent (fresh1 fresh2 : OAuthSession) :
    (startAnthropicOAuthFlow false fresh1 idleFlowState).2 =
      .started fresh1.url ∧
    startUrl (startAnthropicOAuthFlow false fresh2
        (startAnthropicOAuthFlow false fresh1 idleFlowState).1).2 =
      startUrl (startAnthropicOAuthFlow false fresh1 idleFlowState).2 ∧
    (startAnthropicOAuthFlow false fresh2
        (startAnthropicOAuthFlow false fresh1 idleFlowState).1).1 =
      (startAnthropicOAuthFlow false fresh1 idleFlowState).1 ∧
    (startAnthropicOAuthFlow false fresh1 idleFlowState).1.oauthSession =
      some fresh1 :=
  ⟨rfl, rfl, rfl, rfl⟩

/-- Claim C8, counterexample: a stored OAuth credential whose access
token is the empty string and whose expiry lies strictly in the future is
not returned as-is; the code attempts the refresh exchange instead (and
here returns null after a failing refresh), contradicting the claim that
an unexpired credential's stored token is returned. -/
theorem getAccessToken_empty_access_counterexample :
    ((9999 : Int) > 0) ∧
    getAnthropicAccessToken (some ⟨"oauth", "", "refresh-tok", 9999⟩) 0
      (.httpFailure 500) = (none, true) ∧
    (getAnthropicAccessToken (some ⟨"oauth", "", "refresh-tok", 9999⟩) 0
      (.httpFailure 500)).1 ≠ some "" := by
  exact ⟨by decide, by decide, by decide⟩

/-- Claim C8, amended: `getAccessToken` returns the stored access token
exactly when it is non-empty and its expiry is strictly after now; it
attempts the refresh-token exchange when the credential is expired or its
access string is empty; and it returns null rather than throwing when no
credential is stored, when the refresh HTTP call is non-success, and when
the refresh attempt raises, returning the fresh token when the refresh
succeeds. -/
theorem getAccessToken_cases_spec (stored : Option OAuthTokens) (now : Int)
    (outcome : RefreshOutcome) :
    (stored = none →
      getAnthropicAccessToken stored now outcome = (none, false)) ∧
    (∀ t, stored = some t → t.type = "oauth" → ¬ t.access = "" →
      t.expires > now →
      getAnthropicAccessToken stored now outcome = (some t.access, false)) ∧
    (∀ t, stored = some t → t.type = "oauth" →
      (t.access = "" ∨ t.expires ≤ now) →
      ((getAnthropicAccessToken stored now outcome).2 = true ∧
       (∀ s, outcome = .httpFailure s →
         (getAnthropicAccessToken stored now outcome).1 = none) ∧
       (outcome = .thrown →
         (getAnthropicAccessToken stored now outcome).1 = none) ∧
       (∀ a rt e, outcome = .refreshed a rt e →
         (getAnthropicAccessToken stored now outcome).1 = some a))) := by
  refine ⟨?_, ?_, ?_⟩
  · rintro rfl
    rfl
  · rintro t rfl h1 h2 h3
    simp [getAnthropicAccessToken, h1, h2, h3]
  · rintro t rfl h1 hdisj
    have hcond : ¬(t.access ≠ "" ∧ t.expires > now) := by
      rcases hdisj with h | h
      · intro hc
        exact hc.1 h
      · intro hc
        omega
    refine ⟨?_, ?_, ?_, ?_⟩
    · cases outcome <;> simp [getAnthropicAccessToken, h1, hcond]
    · rintro s rfl
      simp [getAnthropicAccessToken, h1, hcond]
    · rintro rfl
      simp [getAnthropicAccessToken, h1, hcond]
    · rintro a rt e rfl
      simp [getAnthropicAccessToken, h1, hcond]

/-- Claim C8 witness: an expired credential refreshed successfully
returns the fresh token with a refresh attempt recorded. -/
theorem getAccessToken_cases_spec_witness :
    (⟨"oauth", "old-tok", "r", 5⟩ : OAuthTokens).type = "oauth" ∧
    ((5 : Int) ≤ 10) ∧
    (getAnthropicAccessToken (some ⟨"oauth", "old-tok", "r", 5⟩) 10
      (.refreshed "new-tok" "r2" 3600)).1 = some "new-tok" ∧
    (getAnthropicAccessToken (some ⟨"oauth", "old-tok", "r", 5⟩) 10
      (.refreshed "new-tok" "r2" 3600)).2 = true := by
  have h := (getAccessToken_cases_spec (some ⟨"oauth", "old-tok", "r", 5⟩) 10
    (.refreshed "new-tok" "r2" 3600)).2.2 ⟨"oauth", "old-tok", "r", 5⟩ rfl rfl
    (Or.inr (by decide))
  exact ⟨rfl, by decide, h.2.2.2 "new-tok" "r2" 3600 rfl, h.1⟩

/-- Claim C9 (confirmed): a configuration that explicitly sets the
temperature to 0 or the max output tokens to 0 is translated with the
defaults 0.7 and 4096, because the JavaScript defaulting treats the falsy
zero the same as an unspecified value. -/
theorem convert_zero_config_defaults (model : String)
    (req : GenerateContentRequest) (cfg : GenConfig)
    (h : req.config = some cfg) :
    (cfg.temperature = some 0 →
      (convertToAnthropicFormat model req).temperature = 7 / 10) ∧
    (cfg.maxOutputTokens = some 0 →
      (convertToAnthropicFormat model req).max_tokens = 4096) := by
  constructor
  · intro ht
    simp [convertToAnthropicFormat, h, ht, jsOrRat]
  · intro hm
    simp [convertToAnthropicFormat, h, hm, jsOrNat]

/-- Claim C9 witness: the defaults at a concrete all-zero configuration. -/
theorem convert_zero_config_defaults_witness :
    (({ contents := [], config := some ⟨some 0, some 0⟩ } :
        GenerateContentRequest).config = some ⟨some 0, some 0⟩) ∧
    (convertToAnthropicFormat "claude"
      { contents := [], config := some ⟨some 0, some 0⟩ }).temperature =
      7 / 10 ∧
    (convertToAnthropicFormat "claude"
      { contents := [], config := some ⟨some 0, some 0⟩ }).max_tokens =
      4096 := by
  have h := convert_zero_config_defaults "claude"
    { contents := [], config := some ⟨some 0, some 0⟩ } ⟨some 0, some 0⟩ rfl
  exact ⟨rfl, h.1 rfl, h.2 rfl⟩

/-- Claim C10 (confirmed): a stored record whose type tag is not `oauth`
makes `getAnthropicAccessToken` return null immediately with no refresh
attempt, exactly as an absent credential does. -/
theorem getAccessToken_non_oauth_record (t : OAuthTokens) (now : Int)
    (outcome : RefreshOutcome) (h : ¬ t.type = "oauth") :
    getAnthropicAccessToken (some t) now outcome = (none, false) ∧
    getAnthropicAccessToken (some t) now outcome =
      getAnthropicAccessToken none now outcome := by
  constructor <;> simp [getAnthropicAccessToken, h]

/-- Claim C10 witness: a static API-key record is ignored without a
refresh attempt. -/
theorem getAccessToken_non_oauth_record_witness :
    ¬ (⟨"api", "sk-key", "", 0⟩ : OAuthTokens).type = "oauth" ∧
    getAnthropicAccessToken (some ⟨"api", "sk-key", "", 0⟩) 1700000000000
      (.refreshed "a" "r" 3600) = (none, false) :=
  ⟨by decide,
   (getAccessToken_non_oauth_record ⟨"api", "sk-key", "", 0⟩ 1700000000000
     (.refreshed "a" "r" 3600) (by decide)).1⟩
